import Mathlib

/-!
# Cookie Category Analyzer — verification of the reconciliation core

A shallow embedding of the core logic of `src/app.py`:

* `getCookieDetails` — the Classification Client retry loop
  (`get_cookie_details`, lines 104-139), with network behaviour abstracted
  by an oracle `Nat → ApiAttempt` giving the outcome of each HTTP attempt;
* `reconcile` — the category-merging rule chain
  (`process_dataframe`, lines 158-175);
* `runBatch` / `processDataframe` — the Batch Orchestrator loop
  (`process_dataframe`, lines 152-199), returning the result list and the
  log of cookie names for which a client call was issued;
* `dropDuplicatesByName` — `input_df.drop_duplicates(subset=["Cookie Name"])`
  (line 229, keeps the first occurrence);
* `outputDf` — the name-keyed left merge of results back onto the original
  rows (`pd.merge(..., on="Cookie Name", how="left")`, lines 242-247).
-/

/-- The parsed JSON payload returned by the model (or the synthesized error
placeholder).  The Python code reads it as a dict via `.get` with defaults,
so each field may be absent; a dict with no fields is falsy in Python. -/
structure ClassificationResult where
  cookieName : Option String
  recommendedCategory : Option String
  justification : Option String
deriving DecidableEq, Repr

/-- Python truthiness of the parsed payload dict restricted to its schema
fields: an empty dict is falsy (`if api_details:` at line 158). -/
def ClassificationResult.isTruthy (r : ClassificationResult) : Bool :=
  r.cookieName.isSome || r.recommendedCategory.isSome || r.justification.isSome

/-- Outcome of one HTTP attempt inside `get_cookie_details` (lines 126-138):
* `requestError c` — `requests.post` / `raise_for_status` / `response.json()`
  raised a `RequestException`; `c` is `getattr(e.response, "status_code", None)`;
* `noCandidates` — the response parsed but had no (or an empty) `candidates`
  list (line 132);
* `payloadOk d` — candidates present and `json.loads` of the embedded text
  produced the dict `d` (line 131);
* `payloadBad m` — candidates present but `json.loads` (or the key lookups
  on the candidate structure) raised; this exception is NOT a
  `RequestException`, so the `except` at line 133 does not catch it. -/
inductive ApiAttempt where
  | requestError (statusCode : Option Nat)
  | noCandidates
  | payloadOk (details : ClassificationResult)
  | payloadBad (msg : String)
deriving DecidableEq, Repr

/-- The justification of the error placeholder built at line 139. -/
def errorJustification (retries : Nat) : String :=
  "API call failed after " ++ toString retries ++ " attempts."

/-- The error placeholder dict returned when all retries are exhausted
(line 139). -/
def errorPlaceholder (name : String) (retries : Nat) : ClassificationResult :=
  { cookieName := some name
    recommendedCategory := some "Error"
    justification := some (errorJustification retries) }

/-- What one call of `get_cookie_details` produces: its return value (or the
exception escaping it, as `Except.error`), the sequence of sleep durations
performed inside the loop, and how many HTTP attempts were issued. -/
structure ClientOutcome where
  result : Except String (Option ClassificationResult)
  sleeps : List Nat
  attemptsMade : Nat
deriving Repr

/-- Sleep performed after a failed attempt (lines 135-138): 60s on a 429
status, otherwise `2 ^ attempt`. -/
def backoffSleep (statusCode : Option Nat) (attempt : Nat) : Nat :=
  if statusCode = some 429 then 60 else 2 ^ attempt

/-- The `for attempt in range(retries)` loop of `get_cookie_details`
(lines 125-139).  `attempt` is the current index, `fuel` the number of
iterations left; when fuel runs out the error placeholder is returned. -/
def clientLoop (name : String) (retries : Nat) (oracle : Nat → ApiAttempt) :
    Nat → Nat → ClientOutcome
  | _, 0 =>
    { result := Except.ok (some (errorPlaceholder name retries))
      sleeps := []
      attemptsMade := 0 }
  | attempt, fuel + 1 =>
    match oracle attempt with
    | ApiAttempt.requestError c =>
      let rest := clientLoop name retries oracle (attempt + 1) fuel
      { result := rest.result
        sleeps := backoffSleep c attempt :: rest.sleeps
        attemptsMade := rest.attemptsMade + 1 }
    | ApiAttempt.noCandidates =>
      { result := Except.ok none, sleeps := [], attemptsMade := 1 }
    | ApiAttempt.payloadOk d =>
      { result := Except.ok (some d), sleeps := [], attemptsMade := 1 }
    | ApiAttempt.payloadBad m =>
      { result := Except.error m, sleeps := [], attemptsMade := 1 }

/-- `get_cookie_details(_cookie_name, retries)` (lines 104-139). -/
def getCookieDetails (name : String) (retries : Nat) (oracle : Nat → ApiAttempt) :
    ClientOutcome :=
  clientLoop name retries oracle 0 retries

/-- The generated dual-applicability sentence of line 175. -/
def dualJustification (domainCategory geminiCategory geminiJustification : String) :
    String :=
  "Depending on the website's use case it can be classified as " ++
    domainCategory ++ "/" ++ geminiCategory ++ ". " ++ geminiJustification

/-- The reconciliation rule chain of lines 161-175, as a function of the
model category `G`, the model justification `J` and the domain category `D`.
The fall-through of the initialisation at lines 161-162 (reached when
`G ≠ D`, `G ≠ "Unknown"`, `D = "Unknown"`) returns `(G, J)` unchanged. -/
def reconcile (geminiCategory geminiJustification domainCategory : String) :
    String × String :=
  if geminiCategory = domainCategory then
    if geminiCategory = "Unknown" then
      (geminiCategory, "Need confirmation from Client")
    else
      (geminiCategory, "N/A")
  else
    if geminiCategory = "Unknown" then
      (domainCategory, "N/A")
    else if domainCategory ≠ "Unknown" then
      (domainCategory ++ "/" ++ geminiCategory,
        dualJustification domainCategory geminiCategory geminiJustification)
    else
      (geminiCategory, geminiJustification)

/-- One input row: (Cookie Name, Domain Category). -/
structure CookieRecord where
  name : String
  domainCategory : String
deriving DecidableEq, Repr

/-- One entry of `results_list` (lines 177-190). -/
structure ReconciledRecord where
  name : String
  domainCategory : String
  finalCategory : String
  finalJustification : String
deriving DecidableEq, Repr

/-- The body of the per-record loop of `process_dataframe` (lines 154-190):
call the client; if the call raised (an exception escaping
`get_cookie_details`), append a "Processing Error" record (lines 184-190);
if it returned `None` or a falsy dict, append nothing; otherwise read the
fields with `.get` defaults (lines 159-160) and reconcile. -/
def processRecord (retries : Nat) (oracle : Nat → ApiAttempt)
    (cookieName domainCategory : String) : Option ReconciledRecord :=
  match (getCookieDetails cookieName retries oracle).result with
  | Except.error e =>
    some { name := cookieName, domainCategory := domainCategory
           finalCategory := "Processing Error", finalJustification := e }
  | Except.ok none => none
  | Except.ok (some apiDetails) =>
    if apiDetails.isTruthy then
      let geminiCategory := apiDetails.recommendedCategory.getD "Unknown"
      let geminiJust := apiDetails.justification.getD ""
      let p := reconcile geminiCategory geminiJust domainCategory
      some { name := cookieName, domainCategory := domainCategory
             finalCategory := p.1, finalJustification := p.2 }
    else none

/-- The orchestrator loop of `process_dataframe` (lines 152-199) over the
record list, in order.  Returns `results_list` together with the log of
cookie names for which a `get_cookie_details` call was issued (exactly one
per record, line 156). -/
def runBatch (retries : Nat) (api : String → Nat → ApiAttempt) :
    List CookieRecord → List ReconciledRecord × List String
  | [] => ([], [])
  | r :: rs =>
    let rest := runBatch retries api rs
    ((processRecord retries (api r.name) r.name r.domainCategory).toList ++ rest.1,
      r.name :: rest.2)

/-- `process_dataframe(df)` restricted to its return value (line 199). -/
def processDataframe (retries : Nat) (api : String → Nat → ApiAttempt)
    (records : List CookieRecord) : List ReconciledRecord :=
  (runBatch retries api records).1

/-- `input_df.drop_duplicates(subset=["Cookie Name"])` (line 229): keep the
first row of each cookie name; `seen` is the set of names already kept. -/
def dropDuplicatesByName : List CookieRecord → List String → List CookieRecord
  | [], _ => []
  | r :: rs, seen =>
    if r.name ∈ seen then dropDuplicatesByName rs seen
    else r :: dropDuplicatesByName rs (r.name :: seen)

/-- The deduplicated record list processed by the batch (line 229). -/
def uniqueCookies (input : List CookieRecord) : List CookieRecord :=
  dropDuplicatesByName input []

/-- One row of `output_df` (lines 242-247): the classification columns are
`none` when the left merge found no matching result row (pandas NaN). -/
structure OutputRow where
  name : String
  domainCategory : String
  recommendedCategory : Option String
  justification : Option String
deriving DecidableEq, Repr

/-- The rows that the left merge produces for one input row: all result rows
with the same cookie name, or a single NaN-padded row if none match. -/
def leftMergeRow (results : List ReconciledRecord) (r : CookieRecord) :
    List OutputRow :=
  let ms := results.filter (fun q => q.name == r.name)
  if ms.isEmpty then
    [{ name := r.name, domainCategory := r.domainCategory
       recommendedCategory := none, justification := none }]
  else
    ms.map (fun q =>
      { name := r.name, domainCategory := r.domainCategory
        recommendedCategory := some q.finalCategory
        justification := some q.finalJustification })

/-- `pd.merge(input_df, analysis_results_df[result_columns], on="Cookie Name",
how="left")` (lines 242-247): each left row, in order, paired with its
matching result rows. -/
def outputDf (input : List CookieRecord) (results : List ReconciledRecord) :
    List OutputRow :=
  input.flatMap (leftMergeRow results)

/-- The classification columns assigned to an input row with cookie name `x`
by the left merge, when the result names are unique: the fields of the first
(hence only) matching result row, or NaN. -/
def mergeFieldsFor (results : List ReconciledRecord) (x : String) :
    Option String × Option String :=
  match results.filter (fun q => q.name == x) with
  | [] => (none, none)
  | q :: _ => (some q.finalCategory, some q.finalJustification)

/-- The single output row an input row receives when result names are
unique. -/
def singleMergeRow (results : List ReconciledRecord) (r : CookieRecord) :
    OutputRow :=
  { name := r.name, domainCategory := r.domainCategory
    recommendedCategory := (mergeFieldsFor results r.name).1
    justification := (mergeFieldsFor results r.name).2 }

/-- The whole run on an uploaded table (lines 226-247): deduplicate, process
the unique records, left-merge the results back onto every original row. -/
def pipeline (retries : Nat) (api : String → Nat → ApiAttempt)
    (input : List CookieRecord) : List OutputRow :=
  outputDf input (processDataframe retries api (uniqueCookies input))

/-! ## Concrete scenarios used to instantiate the theorems -/

/-- A model payload for the cookie `sid`: classified as Targeting. -/
def wOracleC1 : Nat → ApiAttempt :=
  fun _ => ApiAttempt.payloadOk
    { cookieName := some "sid", recommendedCategory := some "Targeting"
      justification := some "tracks users" }

/-- The cookie `pix` gets one transport failure and then a response with no
candidates; every other cookie classifies as Performance. -/
def wApiC2 : String → Nat → ApiAttempt := fun n a =>
  if n = "pix" then
    (if a = 0 then ApiAttempt.requestError none else ApiAttempt.noCandidates)
  else
    ApiAttempt.payloadOk
      { cookieName := some n, recommendedCategory := some "Performance"
        justification := some "measures traffic" }

/-- Every attempt fails with HTTP 500. -/
def wOracleC3 : Nat → ApiAttempt := fun _ => ApiAttempt.requestError (some 500)

/-- Status codes: a 429 on the first attempt, plain failures afterwards. -/
def wCodeC4 : Nat → Option Nat := fun b => if b = 0 then some 429 else none

/-- Every attempt fails, with the status codes of `wCodeC4`. -/
def wOracleC4 : Nat → ApiAttempt := fun b => ApiAttempt.requestError (wCodeC4 b)

/-- Every cookie classifies as Targeting with justification `t`. -/
def wApiC5 : String → Nat → ApiAttempt := fun n _ =>
  ApiAttempt.payloadOk
    { cookieName := some n, recommendedCategory := some "Targeting"
      justification := some "t" }

/-- An input table in which `dup` appears twice with differing domain
categories. -/
def wInputC5 : List CookieRecord :=
  [{ name := "dup", domainCategory := "Essential" },
   { name := "dup", domainCategory := "Performance" },
   { name := "solo", domainCategory := "Unknown" }]

/-- The unique result record produced for `dup` in the `wApiC5` scenario. -/
def wQC5 : ReconciledRecord :=
  { name := "dup", domainCategory := "Essential"
    finalCategory := "Essential" ++ "/" ++ "Targeting"
    finalJustification := dualJustification "Essential" "Targeting" "t" }

/-- Every cookie classifies as Performance. -/
def wApiC6 : String → Nat → ApiAttempt := fun n _ =>
  ApiAttempt.payloadOk
    { cookieName := some n, recommendedCategory := some "Performance"
      justification := some "m" }

/-- An input table in which `dup` appears twice. -/
def wInputC6 : List CookieRecord :=
  [{ name := "dup", domainCategory := "Performance" },
   { name := "other", domainCategory := "Unknown" },
   { name := "dup", domainCategory := "Essential" }]

/-- The first output row for `dup` in the `wApiC6`/`wInputC6` scenario. -/
def wRowC6a : OutputRow :=
  { name := "dup", domainCategory := "Performance"
    recommendedCategory := some "Performance", justification := some "N/A" }

/-- The third output row for `dup` (the duplicate) in the same scenario. -/
def wRowC6b : OutputRow :=
  { name := "dup", domainCategory := "Essential"
    recommendedCategory := some "Performance", justification := some "N/A" }

/-- The cookie `bad` returns a candidate whose embedded payload text fails to
parse; other cookies classify normally. -/
def wApiC7 : String → Nat → ApiAttempt := fun n _ =>
  if n = "bad" then ApiAttempt.payloadBad "Expecting value"
  else
    ApiAttempt.payloadOk
      { cookieName := some n, recommendedCategory := some "Essential"
        justification := some "needed" }

/-- Every attempt fails with no HTTP response at all. -/
def wOracleC9 : Nat → ApiAttempt := fun _ => ApiAttempt.requestError none

/-- A transport failure, then a candidate whose payload text is invalid
JSON. -/
def wOracleC10 : Nat → ApiAttempt := fun b =>
  if b = 0 then ApiAttempt.requestError (some 500)
  else ApiAttempt.payloadBad "Expecting value: line 1 column 1"

/-! ## Helper lemmas: the Classification Client retry loop -/

/-- If every attempt in the fuel window fails with a `RequestException`, the
loop exhausts its fuel and returns the error placeholder, having made one
attempt per unit of fuel. -/
theorem clientLoop_all_requestError (name : String) (retries : Nat)
    (oracle : Nat → ApiAttempt) :
    ∀ fuel attempt,
      (∀ b, attempt ≤ b → b < attempt + fuel →
        ∃ c, oracle b = ApiAttempt.requestError c) →
      (clientLoop name retries oracle attempt fuel).result
          = Except.ok (some (errorPlaceholder name retries)) ∧
        (clientLoop name retries oracle attempt fuel).attemptsMade = fuel := by
  intro fuel
  induction fuel with
  | zero => intro attempt _; exact ⟨rfl, rfl⟩
  | succ f ih =>
    intro attempt h
    obtain ⟨c, hc⟩ := h attempt (le_refl _) (by omega)
    have hrec := ih (attempt + 1) (fun b hb1 hb2 => h b (by omega) (by omega))
    simp only [clientLoop, hc]
    exact ⟨hrec.1, by omega⟩

/-- Skipping a run of failing attempts: if the first `j` attempts in the
window all fail with a `RequestException`, the loop's result is that of the
loop restarted at attempt `attempt + j`, and `j` attempts are consumed. -/
theorem clientLoop_skip (name : String) (retries : Nat)
    (oracle : Nat → ApiAttempt) :
    ∀ j fuel attempt, j < fuel →
      (∀ b, attempt ≤ b → b < attempt + j →
        ∃ c, oracle b = ApiAttempt.requestError c) →
      (clientLoop name retries oracle attempt fuel).result
          = (clientLoop name retries oracle (attempt + j) (fuel - j)).result ∧
        (clientLoop name retries oracle attempt fuel).attemptsMade
          = j + (clientLoop name retries oracle (attempt + j) (fuel - j)).attemptsMade := by
  intro j
  induction j with
  | zero => intro fuel attempt _ _; simp
  | succ i ih =>
    intro fuel attempt hj h
    match fuel, hj with
    | f + 1, hj =>
      obtain ⟨c, hc⟩ := h attempt (le_refl _) (by omega)
      have hrec := ih f (attempt + 1) (by omega)
        (fun b hb1 hb2 => h b (by omega) (by omega))
      have harith : attempt + 1 + i = attempt + (i + 1) := by omega
      rw [harith] at hrec
      simp only [clientLoop, hc, Nat.succ_sub_succ]
      exact ⟨hrec.1, by omega⟩

/-- The sleep performed after the `a`-th failed attempt (all earlier attempts
having failed too): 60 seconds on a 429 status, else `2 ^ a` seconds; each
failed attempt consumes one unit of the retry budget. -/
theorem clientLoop_sleep_at (name : String) (retries : Nat)
    (oracle : Nat → ApiAttempt) (code : Nat → Option Nat) :
    ∀ j fuel attempt, j < fuel →
      (∀ b, attempt ≤ b → b ≤ attempt + j →
        oracle b = ApiAttempt.requestError (code b)) →
      (clientLoop name retries oracle attempt fuel).sleeps[j]?
          = some (backoffSleep (code (attempt + j)) (attempt + j)) ∧
        j + 1 ≤ (clientLoop name retries oracle attempt fuel).attemptsMade := by
  intro j
  induction j with
  | zero =>
    intro fuel attempt hj h
    match fuel, hj with
    | f + 1, _ =>
      have hc := h attempt (le_refl _) (by omega)
      simp only [clientLoop, hc]
      exact ⟨by simp, by omega⟩
  | succ i ih =>
    intro fuel attempt hj h
    match fuel, hj with
    | f + 1, hj =>
      have hc := h attempt (le_refl _) (by omega)
      have hrec := ih f (attempt + 1) (by omega)
        (fun b hb1 hb2 => h b (by omega) (by omega))
      have harith : attempt + 1 + i = attempt + (i + 1) := by omega
      rw [harith] at hrec
      simp only [clientLoop, hc]
      refine ⟨?_, by omega⟩
      simpa using hrec.1

/-! ## Helper lemmas: the Batch Orchestrator -/

theorem processDataframe_nil (retries : Nat) (api : String → Nat → ApiAttempt) :
    processDataframe retries api [] = [] := rfl

theorem processDataframe_cons (retries : Nat) (api : String → Nat → ApiAttempt)
    (r : CookieRecord) (rs : List CookieRecord) :
    processDataframe retries api (r :: rs)
      = (processRecord retries (api r.name) r.name r.domainCategory).toList
          ++ processDataframe retries api rs := rfl

theorem processDataframe_append (retries : Nat) (api : String → Nat → ApiAttempt) :
    ∀ l1 l2 : List CookieRecord,
      processDataframe retries api (l1 ++ l2)
        = processDataframe retries api l1 ++ processDataframe retries api l2 := by
  intro l1 l2
  induction l1 with
  | nil => rfl
  | cons r rs ih =>
    rw [List.cons_append, processDataframe_cons, processDataframe_cons, ih,
      List.append_assoc]

/-- The orchestrator issues exactly one client call per record, in order. -/
theorem runBatch_callLog (retries : Nat) (api : String → Nat → ApiAttempt) :
    ∀ records : List CookieRecord,
      (runBatch retries api records).2 = records.map (fun r => r.name) := by
  intro records
  induction records with
  | nil => rfl
  | cons r rs ih => simp only [runBatch, List.map_cons, ih]

/-- A record appended by the orchestrator carries the cookie name and domain
category of the input record it was built from. -/
theorem processRecord_name (retries : Nat) (oracle : Nat → ApiAttempt)
    (n d : String) (q : ReconciledRecord)
    (h : processRecord retries oracle n d = some q) :
    q.name = n ∧ q.domainCategory = d := by
  unfold processRecord at h
  split at h
  · injection h with h; subst h; exact ⟨rfl, rfl⟩
  · exact absurd h (by simp)
  · split at h
    · injection h with h; subst h; exact ⟨rfl, rfl⟩
    · exact absurd h (by simp)

/-- Every result row comes from some input record via `processRecord`. -/
theorem processDataframe_mem (retries : Nat) (api : String → Nat → ApiAttempt) :
    ∀ (records : List CookieRecord) (q : ReconciledRecord),
      q ∈ processDataframe retries api records →
      ∃ r, r ∈ records ∧
        processRecord retries (api r.name) r.name r.domainCategory = some q := by
  intro records
  induction records with
  | nil => intro q h; exact absurd h (by simp [processDataframe, runBatch])
  | cons r rs ih =>
    intro q h
    rw [processDataframe_cons] at h
    rcases List.mem_append.mp h with h1 | h2
    · refine ⟨r, List.mem_cons_self r rs, ?_⟩
      cases hp : processRecord retries (api r.name) r.name r.domainCategory with
      | none => rw [hp] at h1; exact absurd h1 (by simp)
      | some v =>
        rw [hp] at h1
        simp only [Option.toList_some, List.mem_singleton] at h1
        rw [h1]
    · obtain ⟨r', hr', hp⟩ := ih q h2
      exact ⟨r', List.mem_cons_of_mem r hr', hp⟩

/-- If the input records have pairwise distinct cookie names, so do the
result rows. -/
theorem processDataframe_pairwise (retries : Nat) (api : String → Nat → ApiAttempt) :
    ∀ records : List CookieRecord,
      records.Pairwise (fun a b => a.name ≠ b.name) →
      (processDataframe retries api records).Pairwise
        (fun a b : ReconciledRecord => a.name ≠ b.name) := by
  intro records
  induction records with
  | nil => intro _; simp [processDataframe, runBatch]
  | cons r rs ih =>
    intro hp
    rw [List.pairwise_cons] at hp
    rw [processDataframe_cons, List.pairwise_append]
    refine ⟨?_, ih hp.2, ?_⟩
    · cases hq : processRecord retries (api r.name) r.name r.domainCategory with
      | none => simp
      | some v => simp
    · intro a ha b hb
      have ha' : processRecord retries (api r.name) r.name r.domainCategory = some a := by
        cases hq : processRecord retries (api r.name) r.name r.domainCategory with
        | none => rw [hq] at ha; exact absurd ha (by simp)
        | some v =>
          rw [hq] at ha
          simp only [Option.toList_some, List.mem_singleton] at ha
          rw [ha]
      obtain ⟨r', hr', hp'⟩ := processDataframe_mem retries api rs b hb
      rw [(processRecord_name _ _ _ _ _ ha').1, (processRecord_name _ _ _ _ _ hp').1]
      exact hp.1 r' hr'

/-! ## Helper lemmas: deduplication and the left merge -/

/-- Nothing kept by `drop_duplicates` carries a name already seen. -/
theorem dropDuplicates_not_seen :
    ∀ (rows : List CookieRecord) (seen : List String) (r : CookieRecord),
      r ∈ dropDuplicatesByName rows seen → r.name ∉ seen := by
  intro rows
  induction rows with
  | nil => intro seen r h; exact absurd h (by simp [dropDuplicatesByName])
  | cons a rs ih =>
    intro seen r h
    simp only [dropDuplicatesByName] at h
    by_cases hs : a.name ∈ seen
    · rw [if_pos hs] at h
      exact ih seen r h
    · rw [if_neg hs] at h
      rcases List.mem_cons.mp h with rfl | hmem
      · exact hs
      · have := ih (a.name :: seen) r hmem
        exact fun hc => this (List.mem_cons_of_mem _ hc)

/-- The rows kept by `drop_duplicates` have pairwise distinct cookie names. -/
theorem dropDuplicates_pairwise :
    ∀ (rows : List CookieRecord) (seen : List String),
      (dropDuplicatesByName rows seen).Pairwise (fun a b => a.name ≠ b.name) := by
  intro rows
  induction rows with
  | nil => intro seen; simp [dropDuplicatesByName]
  | cons a rs ih =>
    intro seen
    simp only [dropDuplicatesByName]
    by_cases hs : a.name ∈ seen
    · rw [if_pos hs]; exact ih seen
    · rw [if_neg hs]
      refine List.Pairwise.cons ?_ (ih (a.name :: seen))
      intro b hb hcontra
      have := dropDuplicates_not_seen rs (a.name :: seen) b hb
      exact this (by rw [← hcontra]; exact List.mem_cons_self _ _)

/-- Every cookie name present in the input survives deduplication. -/
theorem dropDuplicates_mem :
    ∀ (rows : List CookieRecord) (seen : List String) (x : String),
      (∃ r, r ∈ rows ∧ r.name = x) → x ∉ seen →
      ∃ q, q ∈ dropDuplicatesByName rows seen ∧ q.name = x := by
  intro rows
  induction rows with
  | nil =>
    intro seen x hex _
    obtain ⟨r, hr, _⟩ := hex
    exact absurd hr (by simp)
  | cons a rs ih =>
    intro seen x hex hxs
    obtain ⟨r, hr, hrx⟩ := hex
    simp only [dropDuplicatesByName]
    by_cases hs : a.name ∈ seen
    · rw [if_pos hs]
      rcases List.mem_cons.mp hr with rfl | hmem
      · exact absurd (hrx ▸ hs) hxs
      · exact ih seen x ⟨r, hmem, hrx⟩ hxs
    · rw [if_neg hs]
      by_cases hax : a.name = x
      · exact ⟨a, List.mem_cons_self _ _, hax⟩
      · rcases List.mem_cons.mp hr with rfl | hmem
        · exact absurd hrx hax
        · obtain ⟨q, hq, hqx⟩ := ih (a.name :: seen) x ⟨r, hmem, hrx⟩ (by
            intro hc
            rcases List.mem_cons.mp hc with h | h
            · exact hax h.symm
            · exact hxs h)
          exact ⟨q, List.mem_cons_of_mem _ hq, hqx⟩

/-- In a list whose elements have pairwise distinct `f`-values, filtering for
the `f`-value of a member yields exactly that member. -/
theorem filter_eq_single {α : Type} (f : α → String) :
    ∀ (l : List α) (x : String) (q : α),
      l.Pairwise (fun a b => f a ≠ f b) → q ∈ l → f q = x →
      l.filter (fun p => f p == x) = [q] := by
  intro l
  induction l with
  | nil => intro x q _ hq _; exact absurd hq (by simp)
  | cons a l ih =>
    intro x q hp hq hqx
    rw [List.pairwise_cons] at hp
    rcases List.mem_cons.mp hq with rfl | hmem
    · have hpass : (f q == x) = true := by simp [hqx]
      rw [List.filter_cons, if_pos hpass]
      have hnil : l.filter (fun p => f p == x) = [] := by
        rw [List.filter_eq_nil_iff]
        intro b hb
        simp only [beq_iff_eq]
        intro hc
        exact hp.1 b hb (hqx.trans hc.symm)
      rw [hnil]
    · have hfail : (f a == x) = false := by
        rw [beq_eq_false_iff_ne]
        intro hc
        exact hp.1 q hmem (hc.trans hqx.symm)
      rw [List.filter_cons, hfail]
      simp only [Bool.false_eq_true, if_false]
      exact ih x q hp.2 hmem hqx

/-- Under unique result names the left merge gives each input row exactly one
output row: the classification fields of its matching result, or NaN. -/
theorem leftMergeRow_eq_single (results : List ReconciledRecord) (r : CookieRecord)
    (hp : results.Pairwise (fun a b => a.name ≠ b.name)) :
    leftMergeRow results r = [singleMergeRow results r] := by
  cases hf : results.filter (fun q => q.name == r.name) with
  | nil => simp [leftMergeRow, singleMergeRow, mergeFieldsFor, hf]
  | cons q ms =>
    have hqmem : q ∈ results.filter (fun q => q.name == r.name) := by
      rw [hf]; exact List.mem_cons_self _ _
    have hsingle := filter_eq_single (fun p : ReconciledRecord => p.name) results
      r.name q hp (List.mem_of_mem_filter hqmem)
      (by simpa using List.of_mem_filter hqmem)
    rw [hf] at hsingle
    injection hsingle with _ hms
    subst hms
    simp [leftMergeRow, singleMergeRow, mergeFieldsFor, hf]

/-- Under unique result names `output_df` is the per-row single merge, so it
has the same length and order as the input. -/
theorem outputDf_eq_map (results : List ReconciledRecord)
    (hp : results.Pairwise (fun a b => a.name ≠ b.name)) :
    ∀ input : List CookieRecord,
      outputDf input results = input.map (singleMergeRow results) := by
  intro input
  induction input with
  | nil => rfl
  | cons r rs ih =>
    show (r :: rs).flatMap (leftMergeRow results) = _
    rw [List.flatMap_cons, leftMergeRow_eq_single results r hp, List.map_cons]
    exact congrArg (singleMergeRow results r :: ·) ih

/-! ## Claim theorems -/

/-- C1: for every non-null classification result with recommended category
`G` and justification `J`, and every existing domain category `D`, the
Reconciliation Engine produces exactly: `(G, "Need confirmation from
Client")` if `G = D = "Unknown"`; `(G, "N/A")` if `G = D ≠ "Unknown"`;
`(D, "N/A")` if `G ≠ D` and `G = "Unknown"`; `(G, J)` if `G ≠ D`,
`G ≠ "Unknown"` and `D = "Unknown"`; and `(D/G, dual-applicability sentence
with J appended)` if `G ≠ D` and neither is `"Unknown"`. -/
theorem reconciliation_rule_table (retries : Nat) (oracle : Nat → ApiAttempt)
    (name dom G J : String) (r : ClassificationResult)
    (hres : (getCookieDetails name retries oracle).result = Except.ok (some r))
    (hG : r.recommendedCategory = some G) (hJ : r.justification = some J) :
    ∃ rec, processRecord retries oracle name dom = some rec ∧
      rec.name = name ∧ rec.domainCategory = dom ∧
      ((G = dom ∧ G = "Unknown") →
        rec.finalCategory = G ∧
        rec.finalJustification = "Need confirmation from Client") ∧
      ((G = dom ∧ G ≠ "Unknown") →
        rec.finalCategory = G ∧ rec.finalJustification = "N/A") ∧
      ((G ≠ dom ∧ G = "Unknown") →
        rec.finalCategory = dom ∧ rec.finalJustification = "N/A") ∧
      ((G ≠ dom ∧ G ≠ "Unknown" ∧ dom = "Unknown") →
        rec.finalCategory = G ∧ rec.finalJustification = J) ∧
      ((G ≠ dom ∧ G ≠ "Unknown" ∧ dom ≠ "Unknown") →
        rec.finalCategory = dom ++ "/" ++ G ∧
        rec.finalJustification = dualJustification dom G J) := by
  have htruthy : r.isTruthy = true := by
    simp [ClassificationResult.isTruthy, hG]
  have hpr : processRecord retries oracle name dom
      = some { name := name, domainCategory := dom
               finalCategory := (reconcile G J dom).1
               finalJustification := (reconcile G J dom).2 } := by
    unfold processRecord
    rw [hres]
    simp [htruthy, hG, hJ]
  refine ⟨_, hpr, rfl, rfl, ?_, ?_, ?_, ?_, ?_⟩
  · rintro ⟨h1, h2⟩
    simp [reconcile, h1, h2, h1.symm.trans h2]
  · rintro ⟨h1, h2⟩
    have hd : dom ≠ "Unknown" := h1 ▸ h2
    simp [reconcile, h1, h2, hd]
  · rintro ⟨h1, h2⟩
    have hd : ¬("Unknown" = dom) := h2 ▸ h1
    simp [reconcile, h1, h2, hd]
  · rintro ⟨h1, h2, h3⟩
    simp [reconcile, h1, h2, h3]
  · rintro ⟨h1, h2, h3⟩
    simp [reconcile, h1, h2, h3]

/-- C1 witness: a Targeting classification for `sid` against domain category
Essential, run through the engine. -/
theorem reconciliation_rule_table_instance :
    ∃ rec, processRecord 1 wOracleC1 "sid" "Essential" = some rec ∧
      rec.name = "sid" ∧ rec.domainCategory = "Essential" ∧
      (("Targeting" = "Essential" ∧ "Targeting" = "Unknown") →
        rec.finalCategory = "Targeting" ∧
        rec.finalJustification = "Need confirmation from Client") ∧
      (("Targeting" = "Essential" ∧ "Targeting" ≠ "Unknown") →
        rec.finalCategory = "Targeting" ∧ rec.finalJustification = "N/A") ∧
      (("Targeting" ≠ "Essential" ∧ "Targeting" = "Unknown") →
        rec.finalCategory = "Essential" ∧ rec.finalJustification = "N/A") ∧
      (("Targeting" ≠ "Essential" ∧ "Targeting" ≠ "Unknown" ∧
          "Essential" = "Unknown") →
        rec.finalCategory = "Targeting" ∧
        rec.finalJustification = "tracks users") ∧
      (("Targeting" ≠ "Essential" ∧ "Targeting" ≠ "Unknown" ∧
          "Essential" ≠ "Unknown") →
        rec.finalCategory = "Essential" ++ "/" ++ "Targeting" ∧
        rec.finalJustification =
          dualJustification "Essential" "Targeting" "tracks users") :=
  reconciliation_rule_table 1 wOracleC1 "sid" "Essential" "Targeting"
    "tracks users"
    { cookieName := some "sid", recommendedCategory := some "Targeting"
      justification := some "tracks users" }
    rfl rfl rfl

/-- C2: when an attempt yields a response with no candidates (all earlier
attempts having failed at transport level), the client returns a null
result, the per-record step appends nothing, and the orchestrator's
unique-result list silently omits the record — it is not marked as an
error. -/
theorem no_candidates_silently_dropped (retries : Nat)
    (api : String → Nat → ApiAttempt) (name dom : String) (a : Nat)
    (rs1 rs2 : List CookieRecord)
    (ha : a < retries)
    (hprev : ∀ b, b < a → ∃ c, api name b = ApiAttempt.requestError c)
    (hdec : api name a = ApiAttempt.noCandidates) :
    (getCookieDetails name retries (api name)).result = Except.ok none ∧
    processRecord retries (api name) name dom = none ∧
    processDataframe retries api
        (rs1 ++ { name := name, domainCategory := dom } :: rs2)
      = processDataframe retries api rs1 ++ processDataframe retries api rs2 := by
  have hskip := (clientLoop_skip name retries (api name) a retries 0 ha
    (fun b _ hb => hprev b (by omega))).1
  rw [Nat.zero_add] at hskip
  obtain ⟨t, ht⟩ : ∃ t, retries - a = t + 1 := ⟨retries - a - 1, by omega⟩
  rw [ht] at hskip
  have hstep : (clientLoop name retries (api name) a (t + 1)).result
      = Except.ok none := by
    simp only [clientLoop, hdec]
  have hres : (getCookieDetails name retries (api name)).result
      = Except.ok none := by
    show (clientLoop name retries (api name) 0 retries).result = _
    rw [hskip, hstep]
  have hpr : processRecord retries (api name) name dom = none := by
    unfold processRecord
    rw [hres]
  refine ⟨hres, hpr, ?_⟩
  rw [processDataframe_append, processDataframe_cons]
  simp [hpr]

/-- C2 witness: cookie `pix` gets a transport failure and then an empty
candidate list; its record is dropped while its neighbours survive. -/
theorem no_candidates_silently_dropped_instance :
    (getCookieDetails "pix" 2 (wApiC2 "pix")).result = Except.ok none ∧
    processRecord 2 (wApiC2 "pix") "pix" "Performance" = none ∧
    processDataframe 2 wApiC2
        ([{ name := "a1", domainCategory := "Essential" }] ++
          { name := "pix", domainCategory := "Performance" } ::
            [{ name := "b1", domainCategory := "Unknown" }])
      = processDataframe 2 wApiC2 [{ name := "a1", domainCategory := "Essential" }]
          ++ processDataframe 2 wApiC2 [{ name := "b1", domainCategory := "Unknown" }] :=
  no_candidates_silently_dropped 2 wApiC2 "pix" "Performance" 1
    [{ name := "a1", domainCategory := "Essential" }]
    [{ name := "b1", domainCategory := "Unknown" }]
    (by decide)
    (fun b hb => by
      have hb0 : b = 0 := by omega
      subst hb0
      exact ⟨none, rfl⟩)
    rfl

/-- C3: if all `retries` attempts of the client fail with a
`RequestException`, the client returns (rather than throws) a result with
`recommendedCategory = "Error"` and a justification stating that the API
call failed after `retries` attempts. -/
theorem retries_exhausted_error_result (name : String) (retries : Nat)
    (oracle : Nat → ApiAttempt)
    (hfail : ∀ a, a < retries → ∃ c, oracle a = ApiAttempt.requestError c) :
    (getCookieDetails name retries oracle).result
        = Except.ok (some
            { cookieName := some name
              recommendedCategory := some "Error"
              justification := some
                ("API call failed after " ++ toString retries ++ " attempts.") }) ∧
      (getCookieDetails name retries oracle).attemptsMade = retries := by
  have h := clientLoop_all_requestError name retries oracle retries 0
    (fun b _ hb => hfail b (by omega))
  exact ⟨h.1, h.2⟩

/-- C3 witness: two attempts, both failing with HTTP 500. -/
theorem retries_exhausted_error_result_instance :
    (getCookieDetails "ga" 2 wOracleC3).result
        = Except.ok (some
            { cookieName := some "ga"
              recommendedCategory := some "Error"
              justification := some
                ("API call failed after " ++ toString 2 ++ " attempts.") }) ∧
      (getCookieDetails "ga" 2 wOracleC3).attemptsMade = 2 :=
  retries_exhausted_error_result "ga" 2 wOracleC3 (fun _ _ => ⟨some 500, rfl⟩)

/-- C4: after the failed attempt number `a` (counting from 0), the client
sleeps 60 seconds if the failure carried HTTP status 429 and `2 ^ a` seconds
otherwise (so backoff starts at 1 second), and the failed attempt still
consumes one of the retry attempts. -/
theorem failed_attempt_sleep_policy (name : String) (retries : Nat)
    (oracle : Nat → ApiAttempt) (code : Nat → Option Nat) (a : Nat)
    (ha : a < retries)
    (hfail : ∀ b, b ≤ a → oracle b = ApiAttempt.requestError (code b)) :
    (getCookieDetails name retries oracle).sleeps[a]?
        = some (if code a = some 429 then 60 else 2 ^ a) ∧
      a + 1 ≤ (getCookieDetails name retries oracle).attemptsMade := by
  have h := clientLoop_sleep_at name retries oracle code a retries 0 ha
    (fun b _ hb => hfail b (by omega))
  rw [Nat.zero_add] at h
  exact ⟨h.1, h.2⟩

/-- C4 witness: a 429 on attempt 0 then a plain failure on attempt 1; the
sleep after attempt 1 is `2 ^ 1` seconds and two attempts are consumed. -/
theorem failed_attempt_sleep_policy_instance :
    (getCookieDetails "fbp" 3 wOracleC4).sleeps[1]?
        = some (if wCodeC4 1 = some 429 then 60 else 2 ^ 1) ∧
      1 + 1 ≤ (getCookieDetails "fbp" 3 wOracleC4).attemptsMade :=
  failed_attempt_sleep_policy "fbp" 3 wOracleC4 wCodeC4 1 (by decide)
    (fun _ _ => rfl)

/-- C7: if processing one record raises (here: an exception escaping the
client call), the orchestrator appends a "Processing Error" record carrying
the exception's description and still processes every record before and
after it — the batch is never aborted. -/
theorem record_failure_does_not_abort_batch (retries : Nat)
    (api : String → Nat → ApiAttempt) (rs1 rs2 : List CookieRecord)
    (name dom e : String)
    (herr : (getCookieDetails name retries (api name)).result = Except.error e) :
    processDataframe retries api
        (rs1 ++ { name := name, domainCategory := dom } :: rs2)
      = processDataframe retries api rs1 ++
        ({ name := name, domainCategory := dom
           finalCategory := "Processing Error"
           finalJustification := e } :: processDataframe retries api rs2) := by
  have hpr : processRecord retries (api name) name dom
      = some { name := name, domainCategory := dom
               finalCategory := "Processing Error", finalJustification := e } := by
    unfold processRecord
    rw [herr]
  rw [processDataframe_append, processDataframe_cons]
  simp [hpr]

/-- C7 witness: the middle record `bad` raises a payload-parse exception; it
becomes a "Processing Error" row and its neighbours are still processed. -/
theorem record_failure_does_not_abort_batch_instance :
    processDataframe 1 wApiC7
        ([{ name := "ok1", domainCategory := "Essential" }] ++
          { name := "bad", domainCategory := "Performance" } ::
            [{ name := "ok2", domainCategory := "Essential" }])
      = processDataframe 1 wApiC7 [{ name := "ok1", domainCategory := "Essential" }] ++
        ({ name := "bad", domainCategory := "Performance"
           finalCategory := "Processing Error"
           finalJustification := "Expecting value" } ::
          processDataframe 1 wApiC7 [{ name := "ok2", domainCategory := "Essential" }]) :=
  record_failure_does_not_abort_batch 1 wApiC7
    [{ name := "ok1", domainCategory := "Essential" }]
    [{ name := "ok2", domainCategory := "Essential" }]
    "bad" "Performance" "Expecting value" rfl

/-- C8 counterexample: two invocations of the Reconciliation Engine with the
identical pair `(G, D) = ("Performance", "Unknown")` but different model
justifications produce different `(finalCategory, finalJustification)`
pairs, so the claim as stated is false. -/
theorem reconcile_depends_on_justification :
    reconcile "Performance" "first justification" "Unknown"
      ≠ reconcile "Performance" "second justification" "Unknown" := by decide

/-- C8 amended: with identical `(G, D)` the produced `finalCategory` is
always identical, and the full pair `(finalCategory, finalJustification)` is
identical whenever the justification `J` is identical too. -/
theorem reconcile_deterministic (G D J1 J2 : String) :
    (reconcile G J1 D).1 = (reconcile G J2 D).1 ∧
    (J1 = J2 → reconcile G J1 D = reconcile G J2 D) := by
  constructor
  · unfold reconcile
    split_ifs <;> rfl
  · intro h
    rw [h]

/-- C8 witness for the amended claim. -/
theorem reconcile_deterministic_instance :
    (reconcile "Targeting" "a" "Essential").1
        = (reconcile "Targeting" "a" "Essential").1 ∧
    ("a" = "a" →
      reconcile "Targeting" "a" "Essential" = reconcile "Targeting" "a" "Essential") :=
  reconcile_deterministic "Targeting" "Essential" "a" "a"

/-- C9: when every attempt fails and the domain category `D` is neither
"Error" nor "Unknown", the error placeholder is itself fed through the
reconciliation rules: the output category is `D/Error` — not the bare
"Error" — and the justification is the dual-applicability sentence with the
failure message appended. -/
theorem error_placeholder_reconciled (name : String) (retries : Nat)
    (oracle : Nat → ApiAttempt) (dom : String)
    (hfail : ∀ a, a < retries → ∃ c, oracle a = ApiAttempt.requestError c)
    (hde : dom ≠ "Error") (hdu : dom ≠ "Unknown") :
    processRecord retries oracle name dom
      = some { name := name, domainCategory := dom
               finalCategory := dom ++ "/" ++ "Error"
               finalJustification :=
                 dualJustification dom "Error" (errorJustification retries) } := by
  have hres : (getCookieDetails name retries oracle).result
      = Except.ok (some (errorPlaceholder name retries)) :=
    (clientLoop_all_requestError name retries oracle retries 0
      (fun b _ hb => hfail b (by omega))).1
  unfold processRecord
  rw [hres]
  have h1 : ¬("Error" = dom) := fun h => hde h.symm
  simp [errorPlaceholder, ClassificationResult.isTruthy, reconcile, h1, hdu]

/-- C9 witness: one attempt, failing without a response; domain category
Performance yields `Performance/Error`. -/
theorem error_placeholder_reconciled_instance :
    processRecord 1 wOracleC9 "sess" "Performance"
      = some { name := "sess", domainCategory := "Performance"
               finalCategory := "Performance" ++ "/" ++ "Error"
               finalJustification :=
                 dualJustification "Performance" "Error" (errorJustification 1) } :=
  error_placeholder_reconciled "sess" 1 wOracleC9 "Performance"
    (fun _ _ => ⟨none, rfl⟩) (by decide) (by decide)

/-- C10: if attempt `a` succeeds at HTTP level but its embedded payload
fails to parse, the exception escapes the retry loop (which catches only
`RequestException`s): no further attempts are made, and the orchestrator's
per-record handler records a "Processing Error" result with the exception's
description. -/
theorem payload_parse_error_propagates (name : String) (retries : Nat)
    (oracle : Nat → ApiAttempt) (dom m : String) (a : Nat)
    (ha : a < retries)
    (hprev : ∀ b, b < a → ∃ c, oracle b = ApiAttempt.requestError c)
    (hbad : oracle a = ApiAttempt.payloadBad m) :
    (getCookieDetails name retries oracle).result = Except.error m ∧
    (getCookieDetails name retries oracle).attemptsMade = a + 1 ∧
    processRecord retries oracle name dom
      = some { name := name, domainCategory := dom
               finalCategory := "Processing Error", finalJustification := m } := by
  have hskip := clientLoop_skip name retries oracle a retries 0 ha
    (fun b _ hb => hprev b (by omega))
  rw [Nat.zero_add] at hskip
  obtain ⟨t, ht⟩ : ∃ t, retries - a = t + 1 := ⟨retries - a - 1, by omega⟩
  rw [ht] at hskip
  have hstep : clientLoop name retries oracle a (t + 1)
      = { result := Except.error m, sleeps := [], attemptsMade := 1 } := by
    simp only [clientLoop, hbad]
  have hres : (getCookieDetails name retries oracle).result = Except.error m := by
    show (clientLoop name retries oracle 0 retries).result = _
    rw [hskip.1, hstep]
  have hatt : (getCookieDetails name retries oracle).attemptsMade = a + 1 := by
    show (clientLoop name retries oracle 0 retries).attemptsMade = _
    rw [hskip.2, hstep]
  refine ⟨hres, hatt, ?_⟩
  unfold processRecord
  rw [hres]

/-- C10 witness: a transport failure on attempt 0, then invalid payload JSON
on attempt 1 of 5; exactly two attempts are made and the record surfaces as
a "Processing Error". -/
theorem payload_parse_error_propagates_instance :
    (getCookieDetails "cart" 5 wOracleC10).result
        = Except.error "Expecting value: line 1 column 1" ∧
    (getCookieDetails "cart" 5 wOracleC10).attemptsMade = 1 + 1 ∧
    processRecord 5 wOracleC10 "cart" "Essential"
      = some { name := "cart", domainCategory := "Essential"
               finalCategory := "Processing Error"
               finalJustification := "Expecting value: line 1 column 1" } :=
  payload_parse_error_propagates "cart" 5 wOracleC10 "Essential"
    "Expecting value: line 1 column 1" 1 (by decide)
    (fun b hb => by
      have hb0 : b = 0 := by omega
      subst hb0
      exact ⟨some 500, rfl⟩)
    rfl

/-- C5: the output table has exactly as many rows as the input, in the same
order — each input row yields exactly one output row in place — and every
input row (duplicates included) whose cookie name has a result record
receives exactly that record's classification fields via the name-based left
merge. -/
theorem output_preserves_rows (retries : Nat) (api : String → Nat → ApiAttempt)
    (input : List CookieRecord) :
    (pipeline retries api input).length = input.length ∧
    pipeline retries api input
        = input.map
            (singleMergeRow (processDataframe retries api (uniqueCookies input))) ∧
    (∀ (i : Nat) (r : CookieRecord) (q : ReconciledRecord), input[i]? = some r →
      q ∈ processDataframe retries api (uniqueCookies input) → q.name = r.name →
      (pipeline retries api input)[i]?
        = some { name := r.name, domainCategory := r.domainCategory
                 recommendedCategory := some q.finalCategory
                 justification := some q.finalJustification }) := by
  have hpw : (processDataframe retries api (uniqueCookies input)).Pairwise
      (fun a b => a.name ≠ b.name) :=
    processDataframe_pairwise retries api _ (dropDuplicates_pairwise input [])
  have hmap : pipeline retries api input
      = input.map
          (singleMergeRow (processDataframe retries api (uniqueCookies input))) :=
    outputDf_eq_map _ hpw input
  refine ⟨by rw [hmap, List.length_map], hmap, ?_⟩
  intro i r q hir hq hqr
  rw [hmap, List.getElem?_map, hir]
  have hfs := filter_eq_single (fun p : ReconciledRecord => p.name) _ r.name q
    hpw hq hqr
  simp [singleMergeRow, mergeFieldsFor, hfs]

/-- C5 witness: `dup` appears twice in the input (rows 0 and 1); row 1, a
duplicate, receives the classification fields of the representative result
record for `dup`. -/
theorem output_preserves_rows_instance :
    (pipeline 1 wApiC5 wInputC5).length = wInputC5.length ∧
    (pipeline 1 wApiC5 wInputC5)[1]?
      = some { name := "dup", domainCategory := "Performance"
               recommendedCategory := some wQC5.finalCategory
               justification := some wQC5.finalJustification } :=
  ⟨(output_preserves_rows 1 wApiC5 wInputC5).1,
    (output_preserves_rows 1 wApiC5 wInputC5).2.2 1
      { name := "dup", domainCategory := "Performance" } wQC5 rfl (by decide) rfl⟩

/-- C6: when a cookie name `x` appears `k > 1` times in the input, the
orchestrator issues exactly one Classification Client call for `x`, and all
output rows for `x` carry identical Recommended Category and Justification
fields. -/
theorem duplicate_cookies_single_call (retries : Nat)
    (api : String → Nat → ApiAttempt) (input : List CookieRecord)
    (x : String) (k : Nat)
    (hk : (input.filter (fun r => r.name == x)).length = k) (hk1 : 1 < k) :
    (runBatch retries api (uniqueCookies input)).2.count x = 1 ∧
    (∀ o1 o2 : OutputRow,
      o1 ∈ pipeline retries api input → o2 ∈ pipeline retries api input →
      o1.name = x → o2.name = x →
      o1.recommendedCategory = o2.recommendedCategory ∧
      o1.justification = o2.justification) := by
  have hex : ∃ r, r ∈ input ∧ r.name = x := by
    have hne : input.filter (fun r => r.name == x) ≠ [] := by
      intro hnil
      rw [hnil] at hk
      simp at hk
      omega
    obtain ⟨r, hr⟩ := List.exists_mem_of_ne_nil _ hne
    exact ⟨r, List.mem_of_mem_filter hr, by simpa using List.of_mem_filter hr⟩
  obtain ⟨q0, hq0, hq0x⟩ := dropDuplicates_mem input [] x hex (by simp)
  constructor
  · rw [runBatch_callLog, List.count_eq_countP, List.countP_map,
      List.countP_eq_length_filter]
    have hone := filter_eq_single (fun r : CookieRecord => r.name)
      (uniqueCookies input) x q0 (dropDuplicates_pairwise input []) hq0 hq0x
    have hpred : ((fun b => b == x) ∘ fun r : CookieRecord => r.name)
        = (fun p : CookieRecord => p.name == x) := rfl
    rw [hpred, hone]
    rfl
  · have hpw : (processDataframe retries api (uniqueCookies input)).Pairwise
        (fun a b => a.name ≠ b.name) :=
      processDataframe_pairwise retries api _ (dropDuplicates_pairwise input [])
    have hmap : pipeline retries api input
        = input.map
            (singleMergeRow (processDataframe retries api (uniqueCookies input))) :=
      outputDf_eq_map _ hpw input
    intro o1 o2 h1 h2 h1x h2x
    rw [hmap] at h1 h2
    obtain ⟨r1, hr1, ho1⟩ := List.mem_map.mp h1
    obtain ⟨r2, hr2, ho2⟩ := List.mem_map.mp h2
    subst ho1
    subst ho2
    have hr1x : r1.name = x := h1x
    have hr2x : r2.name = x := h2x
    constructor
    · show (mergeFieldsFor (processDataframe retries api (uniqueCookies input))
          r1.name).1 = (mergeFieldsFor _ r2.name).1
      rw [hr1x, hr2x]
    · show (mergeFieldsFor (processDataframe retries api (uniqueCookies input))
          r1.name).2 = (mergeFieldsFor _ r2.name).2
      rw [hr1x, hr2x]

/-- C6 witness: `dup` appears twice; one call is made for it and its two
output rows (rows 0 and 2) carry identical classification fields. -/
theorem duplicate_cookies_single_call_instance :
    (runBatch 1 wApiC6 (uniqueCookies wInputC6)).2.count "dup" = 1 ∧
    (wRowC6a.recommendedCategory = wRowC6b.recommendedCategory ∧
      wRowC6a.justification = wRowC6b.justification) :=
  ⟨(duplicate_cookies_single_call 1 wApiC6 wInputC6 "dup" 2 rfl (by decide)).1,
    (duplicate_cookies_single_call 1 wApiC6 wInputC6 "dup" 2 rfl (by decide)).2
      wRowC6a wRowC6b (by decide) (by decide) rfl rfl⟩
